import Mathlib

/- Shallow embedding of the U-Boot driver-model core (drivers/core/lists.c and
   drivers/core/root.c): error codes, compatible-string matching, HDT node
   binding, the static-descriptor binding passes, the probe walk, the extended
   scan, and root teardown.  External collaborators (driver bind hooks, the HDT
   parser, device_probe, device_remove, device_unbind) appear as oracle
   parameters or recorded call traces, exactly at the points where the C code
   calls out of the two source files. -/

/- Error numbers from errno.h; the C code returns their negations. -/

def EPERM : Int := 1

def ENOENT : Int := 2

def EAGAIN : Int := 11

def ENODEV : Int := 19

def EINVAL : Int := 22

def FDT_ERR_NOTFOUND : Int := 1

/- Flag masks from dm/device.h (numeric values symbolic; used only as masks). -/

def DM_FLAG_PRE_RELOC : Nat := 4

def DM_FLAG_PROBE_AFTER_BIND : Nat := 512

/- Remove-stage tags passed to device_remove (values symbolic, only compared). -/

def DM_REMOVE_NON_VITAL : Nat := 2

def DM_REMOVE_NORMAL : Nat := 1

/-- One entry of a driver's of_match table (struct udevice_id). -/
structure UdeviceId where
  compatible : String
  data : Nat
  deriving Repr, DecidableEq

/-- A registry driver (struct driver); of_match = none models a NULL table. -/
structure Driver where
  name : String
  of_match : Option (List UdeviceId)
  flags : Nat
  deriving Repr, DecidableEq

/-- An HDT node as lists_bind_fdt reads it: its name, the outcome of
    ofnode_get_property(node, "compatible") (error code, or the list of
    NUL-separated strings in the property blob), and ofnode_pre_reloc. -/
structure Node where
  name : String
  compat_prop : Except Int (List String)
  pre_reloc : Bool

/-- The while loop of driver_check_compatible: first of_match entry whose
    compatible string equals compat. -/
def find_compat : List UdeviceId → String → Option UdeviceId
  | [], _ => none
  | m :: rest, compat =>
      if m.compatible = compat then some m else find_compat rest compat

/-- driver_check_compatible (lists.c:193): NULL of_match gives -ENOENT; else
    return the first matching of_match entry through *of_idp.  -ENOENT is
    modelled as none, a hit as some entry. -/
def driver_check_compatible (of_match : Option (List UdeviceId))
    (compat : String) : Option UdeviceId :=
  match of_match with
  | none => none
  | some ms => find_compat ms compat

/-- The inner driver loop of lists_bind_fdt (lists.c:254-273), walking the
    driver table with its index (the C iterates by pointer; a restriction drv
    is a pointer into the table, modelled as the index di).  Returns the
    index and entry where the loop broke out, with the matched of_match entry
    (none when the break was the no-of_match break under a restriction). -/
def scanDriversAux (drv : Option Nat) (compat : String) :
    Nat → List Driver → Option (Nat × Driver × Option UdeviceId)
  | _, [] => none
  | i, entry :: rest =>
      match drv with
      | some di =>
          if di ≠ i then scanDriversAux drv compat (i + 1) rest
          else if entry.of_match.isNone then some (i, entry, none)
          else
            match driver_check_compatible entry.of_match compat with
            | some id => some (i, entry, some id)
            | none => scanDriversAux drv compat (i + 1) rest
      | none =>
          match driver_check_compatible entry.of_match compat with
          | some id => some (i, entry, some id)
          | none => scanDriversAux drv compat (i + 1) rest

/-- The inner driver loop started at the head of the registry. -/
def scanDrivers (drivers : List Driver) (drv : Option Nat) (compat : String) :
    Option (Nat × Driver × Option UdeviceId) :=
  scanDriversAux drv compat 0 drivers

/-- The outer compatible-string loop of lists_bind_fdt (lists.c:249-308).
    bindFn is the device_bind_with_driver_data oracle (driver, driver_data) ↦
    return code.  The result is the C return code together with the final
    value of *devp: ok none = return 0 with no device, ok (some (e, d)) =
    return 0 with a device bound to driver e with driver data d. -/
def bindFdtLoop (drivers : List Driver) (drv : Option Nat)
    (pre_reloc_only node_pre_reloc : Bool) (bindFn : Driver → Nat → Int) :
    List String → Except Int (Option (Driver × Nat))
  | [] => Except.ok none
  | compat :: rest =>
      match scanDrivers drivers drv compat with
      | none => bindFdtLoop drivers drv pre_reloc_only node_pre_reloc bindFn rest
      | some (_, entry, oid) =>
          if pre_reloc_only && !node_pre_reloc &&
              (entry.flags &&& DM_FLAG_PRE_RELOC == 0) then
            Except.ok none
          else
            let data := match oid with
              | some id => id.data
              | none => 0
            let ret := bindFn entry data
            if ret = -ENODEV then
              bindFdtLoop drivers drv pre_reloc_only node_pre_reloc bindFn rest
            else if ret = 0 then
              Except.ok (some (entry, data))
            else
              Except.error ret

/-- lists_bind_fdt (lists.c:211): read the compatible property (no property
    with -FDT_ERR_NOTFOUND is success with no device; any other property
    error is returned), then run the compatible-string loop. -/
def lists_bind_fdt (drivers : List Driver) (node : Node) (drv : Option Nat)
    (pre_reloc_only : Bool) (bindFn : Driver → Nat → Int) :
    Except Int (Option (Driver × Nat)) :=
  match node.compat_prop with
  | Except.error e =>
      if e = -FDT_ERR_NOTFOUND then Except.ok none else Except.error e
  | Except.ok compats =>
      bindFdtLoop drivers drv pre_reloc_only node.pre_reloc bindFn compats

/- ------------------------------------------------------------------ -/
/- Static-descriptor binding (bind_drivers_pass / lists_bind_drivers). -/

/-- One driver_info record; parent_idx models driver_info_parent_id (none for
    the -1 "no parent" value). -/
structure DriverInfo where
  name : String
  parent_idx : Option Nat
  deriving Repr, DecidableEq

/-- The CONFIG_IS_ENABLED build switches bind_drivers_pass consults. -/
structure DMConfig where
  of_platdata : Bool
  of_platdata_parent : Bool
  deriving Repr, DecidableEq

/-- Loop state of one bind_drivers_pass: the driver_rt slot array (slots),
    the missing_parent and result locals, and the trace of indices for which
    device_bind_by_name was invoked. -/
structure PassState where
  slots : List (Option Nat)
  missing_parent : Bool
  result : Int
  binds : List Nat
  deriving Repr, DecidableEq

/-- gd_dm_driver_rt()[i].dev (out-of-range reads give the NULL device). -/
def slotAt (slots : List (Option Nat)) (i : Nat) : Option Nat :=
  (slots.get? i).getD none

/-- One iteration of the idx loop of bind_drivers_pass (lists.c:88-127).
    bindRes is the device_bind_by_name oracle (descriptor index ↦ return
    code); a successfully bound device is identified with its index. -/
def passStep (cfg : DMConfig) (infos : List DriverInfo) (bindRes : Nat → Int)
    (st : PassState) (idx : Nat) : PassState :=
  let entry := (infos.get? idx).getD ⟨"", none⟩
  if cfg.of_platdata && (slotAt st.slots idx).isSome then
    st
  else if cfg.of_platdata && cfg.of_platdata_parent && entry.parent_idx.isSome
      && (slotAt st.slots (entry.parent_idx.getD 0)).isNone then
    { st with missing_parent := true }
  else
    let ret := bindRes idx
    let st1 := { st with binds := st.binds ++ [idx] }
    if ret = 0 then
      if cfg.of_platdata then { st1 with slots := st1.slots.set idx (some idx) }
      else st1
    else if ret = -EPERM then st1
    else if st1.result = 0 ∨ ret ≠ -ENOENT then { st1 with result := ret }
    else st1

/-- bind_drivers_pass (lists.c:71): fold the idx loop over all descriptor
    indices, then combine result / missing_parent as the C return does.
    Returns (return code, final slot array, bind-call trace). -/
def bind_drivers_pass (cfg : DMConfig) (infos : List DriverInfo)
    (bindRes : Nat → Int) (slots : List (Option Nat)) :
    Int × List (Option Nat) × List Nat :=
  let st := (List.range infos.length).foldl (passStep cfg infos bindRes)
    ⟨slots, false, 0, []⟩
  (if st.result ≠ 0 then st.result
   else if st.missing_parent then -EAGAIN else 0,
   st.slots, st.binds)

/-- The pass loop of lists_bind_drivers (lists.c:143-154), fuel = remaining
    passes.  Returns (result, number of passes executed). -/
def bindDriversGo (cfg : DMConfig) (infos : List DriverInfo)
    (bindRes : Nat → Int) :
    Nat → Int → List (Option Nat) → Nat → Int × Nat
  | 0, result, _, count => (result, count)
  | fuel + 1, result, slots, count =>
      let r := bind_drivers_pass cfg infos bindRes slots
      let result1 := if result = 0 ∨ result = -EAGAIN then r.1 else result
      if r.1 ≠ -EAGAIN then (result1, count + 1)
      else bindDriversGo cfg infos bindRes fuel result1 r.2.1 (count + 1)

/-- lists_bind_drivers (lists.c:133): up to 10 passes. -/
def lists_bind_drivers (cfg : DMConfig) (infos : List DriverInfo)
    (bindRes : Nat → Int) (slots : List (Option Nat)) : Int × Nat :=
  bindDriversGo cfg infos bindRes 10 0 slots 0

/-- Slot array after k passes starting from slots (pass trajectory). -/
def slotsAfter (cfg : DMConfig) (infos : List DriverInfo)
    (bindRes : Nat → Int) (slots : List (Option Nat)) : Nat → List (Option Nat)
  | 0 => slots
  | k + 1 =>
      (bind_drivers_pass cfg infos bindRes
        (slotsAfter cfg infos bindRes slots k)).2.1

/-- Return code of the (k+1)-th pass along the trajectory from slots. -/
def passRet (cfg : DMConfig) (infos : List DriverInfo) (bindRes : Nat → Int)
    (slots : List (Option Nat)) (k : Nat) : Int :=
  (bind_drivers_pass cfg infos bindRes
    (slotsAfter cfg infos bindRes slots k)).1

/- ------------------------------------------------------------------ -/
/- Probe walk (dm_probe_devices, root.c:308-330). -/

/-- What dm_probe_devices reads of one device: dev_get_flags, the driver's
    flags, validity / pre-reloc mark of its ofnode, and the device_probe
    oracle outcome for it. -/
structure DevInfo where
  name : String
  flags : Nat
  driver_flags : Nat
  node_valid : Bool
  node_pre_reloc : Bool
  probe_res : Int

/-- A device with its child list (child_head in sibling order). -/
inductive DevTree where
  | node : DevInfo → List DevTree → DevTree

/-- The pre-relocation gate condition of dm_probe_devices (root.c:314-316). -/
def probeGateSkip (pre : Bool) (info : DevInfo) : Bool :=
  pre && (!info.node_valid || !info.node_pre_reloc) &&
    (info.driver_flags &&& DM_FLAG_PRE_RELOC == 0)

mutual

/-- dm_probe_devices (root.c:308): returns the C return code and the trace of
    device_probe invocations (names, in call order). -/
def dm_probe_devices (pre : Bool) : DevTree → Int × List String
  | .node info children =>
      if probeGateSkip pre info then
        (0, probe_children pre children)
      else if info.flags &&& DM_FLAG_PROBE_AFTER_BIND ≠ 0 then
        if info.probe_res ≠ 0 then (info.probe_res, [info.name])
        else (0, info.name :: probe_children pre children)
      else (0, probe_children pre children)

/-- The list_for_each_entry over child_head: recurse into every child, return
    values discarded (only the probe traces are observable). -/
def probe_children (pre : Bool) : List DevTree → List String
  | [] => []
  | c :: cs => (dm_probe_devices pre c).2 ++ probe_children pre cs

end

/- ------------------------------------------------------------------ -/
/- Extended scan (dm_extended_scan, root.c:264-291). -/

/-- The well-known auxiliary paths scanned by dm_extended_scan. -/
def auxNodes : List String := ["/chosen", "/clocks", "/firmware"]

/-- The path loop of dm_extended_scan: scanPath is the
    dm_scan_fdt_ofnode_path oracle.  Returns the C return code and the trace
    of paths actually scanned. -/
def extendedScanLoop (scanPath : String → Int) :
    List String → Int × List String
  | [] => (0, [])
  | p :: rest =>
      let r := scanPath p
      if r ≠ 0 then (r, [p])
      else
        let rec2 := extendedScanLoop scanPath rest
        (rec2.1, p :: rec2.2)

/-- dm_extended_scan: scanRoot is the dm_scan_fdt outcome; on its failure the
    path loop is never entered. -/
def dm_extended_scan (scanRoot : Int) (scanPath : String → Int) :
    Int × List String :=
  if scanRoot ≠ 0 then (scanRoot, [])
  else extendedScanLoop scanPath auxNodes

/- ------------------------------------------------------------------ -/
/- Root teardown (dm_uninit, root.c:144-153). -/

/-- gd, as far as dm_uninit touches it. -/
structure GlobalData where
  dm_root : Option Nat
  deriving Repr, DecidableEq

/-- dm_root (root.c:39): returns gd->dm_root, NULL (with a warning) when
    absent. -/
def dm_root (gd : GlobalData) : Option Nat :=
  gd.dm_root

/-- The external calls dm_uninit makes, in order. -/
inductive UninitCall where
  | remove (dev : Option Nat) (flags : Nat)
  | unbind (dev : Option Nat)
  deriving Repr, DecidableEq

/-- dm_uninit: remove(root, NON_VITAL), remove(root, NORMAL), unbind(root)
    with all return values ignored, clear gd->dm_root, return 0. -/
def dm_uninit (gd : GlobalData) : Int × GlobalData × List UninitCall :=
  (0, ⟨none⟩,
   [UninitCall.remove (dm_root gd) DM_REMOVE_NON_VITAL,
    UninitCall.remove (dm_root gd) DM_REMOVE_NORMAL,
    UninitCall.unbind (dm_root gd)])

/- ------------------------------------------------------------------ -/
/- Specification-side predicates used in the theorem statements. -/

/-- A driver matches a compatible string when its of_match table contains it. -/
def driverMatches (e : Driver) (c : String) : Bool :=
  (driver_check_compatible e.of_match c).isSome

/-- The last element of a pass's error list that is not -ENOENT, if any. -/
def lastNonNoDriver : List Int → Option Int
  | [] => none
  | e :: rest =>
      match lastNonNoDriver rest with
      | some x => some x
      | none => if e = -ENOENT then none else some e

/-- The bind failures a pass records (neither success nor -EPERM), in
    descriptor order, for a pass that skips no descriptor. -/
def passErrors (infos : List DriverInfo) (bindRes : Nat → Int) : List Int :=
  ((List.range infos.length).map bindRes).filter
    (fun r => !(r == 0) && !(r == -EPERM))

/-- Spec-side error recording discipline of one pass (lists.c:124-125). -/
def recordErr (acc e : Int) : Int :=
  if acc = 0 ∨ e ≠ -ENOENT then e else acc

/-- For a given compatible string, either no driver is selected by the scan or
    the selected driver's flags lack DM_FLAG_PRE_RELOC. -/
def scanEntryFlagsClear (drivers : List Driver) (drv : Option Nat)
    (c : String) : Bool :=
  match scanDrivers drivers drv c with
  | some p => p.2.1.flags &&& DM_FLAG_PRE_RELOC == 0
  | none => true

/- ------------------------------------------------------------------ -/
/- Example fixtures used by witnesses and counterexamples. -/

/-- Driver matching the lower-priority string of the priority scenario. -/
def exDrvA : Driver := ⟨"A", some [⟨"generic,foo", 1⟩], 0⟩

/-- Driver matching the higher-priority string of the priority scenario. -/
def exDrvB : Driver := ⟨"B", some [⟨"acme,foo-v2", 7⟩], 0⟩

/-- Node whose compatible list is "acme,foo-v2", then "generic,foo". -/
def exNodePrio : Node := ⟨"n", Except.ok ["acme,foo-v2", "generic,foo"], false⟩

/-- A driver with a NULL of_match table. -/
def exDrvNoMatch : Driver := ⟨"d", none, 0⟩

/-- A node with a single compatible string "c". -/
def exNodeSingle : Node := ⟨"n", Except.ok ["c"], false⟩

/-- A node compatible only with "generic,foo", not marked pre-reloc. -/
def exNodeGeneric : Node := ⟨"n", Except.ok ["generic,foo"], false⟩

/-- A node whose compatible string matches no registered driver. -/
def exNodeNoMatch : Node := ⟨"n", Except.ok ["zzz"], false⟩

/-- A leaf device with PROBE_AFTER_BIND set and a succeeding probe. -/
def exProbeChild : DevTree :=
  .node ⟨"C", DM_FLAG_PROBE_AFTER_BIND, 0, true, true, 0⟩ []

/-- A parent with PROBE_AFTER_BIND whose probe fails with -5, with
    exProbeChild as its only child. -/
def exProbeParent : DevTree :=
  .node ⟨"P", DM_FLAG_PROBE_AFTER_BIND, 0, true, true, -5⟩ [exProbeChild]

/-- Path-scan oracle failing on /chosen only. -/
def exScanChosenFails : String → Int := fun p => if p = "/chosen" then -5 else 0

/-- Path-scan oracle failing on /clocks only. -/
def exScanClocksFails : String → Int := fun p => if p = "/clocks" then -7 else 0

/-- Two parentless descriptors. -/
def exInfosTwo : List DriverInfo := [⟨"a", none⟩, ⟨"b", none⟩]

/-- Bind oracle failing with -EINVAL on descriptor 0 and -5 (an I/O error,
    also not -ENOENT) on the rest. -/
def exBindTwoErrs : Nat → Int := fun i => if i = 0 then -EINVAL else -5

/-- Full of-platdata configuration (parent resolution active). -/
def exCfgPlat : DMConfig := ⟨true, true⟩

/-- of-platdata configuration without parent resolution. -/
def exCfgPlatNoParent : DMConfig := ⟨true, false⟩

/-- A single descriptor declaring itself as its own parent (a cycle). -/
def exInfosCycle : List DriverInfo := [⟨"a", some 0⟩]

/-- Bind oracle that always succeeds. -/
def exBindOk : Nat → Int := fun _ => 0

/-- Bind hook oracle whose driver-B hook refuses (-ENODEV); every other
    driver's hook succeeds. -/
def exBindRefuseB : Driver → Nat → Int :=
  fun dv _ => if dv = exDrvB then -ENODEV else 0

/- ------------------------------------------------------------------ -/
/- Lemmas about the inner driver scan of lists_bind_fdt. -/

/-- With no restriction, the driver scan comes up empty exactly when no
    registry driver matches the compatible string. -/
theorem scanAux_eq_none_iff (c : String) (l : List Driver) :
    ∀ k, scanDriversAux none c k l = none ↔
      ∀ e ∈ l, driverMatches e c = false := by
  induction l with
  | nil => intro k; simp [scanDriversAux]
  | cons hd tl ih =>
      intro k
      cases h : driver_check_compatible hd.of_match c with
      | some id => simp [scanDriversAux, h, driverMatches]
      | none => simp [scanDriversAux, h, ih (k + 1), driverMatches]

/-- With no restriction, a successful scan returns the first matching driver
    in registry order. -/
theorem scanAux_some_find (c : String) (l : List Driver) :
    ∀ k i e oid, scanDriversAux none c k l = some (i, e, oid) →
      l.find? (fun x => driverMatches x c) = some e := by
  induction l with
  | nil => intro k i e oid h; simp [scanDriversAux] at h
  | cons hd tl ih =>
      intro k i e oid h
      cases hm : driver_check_compatible hd.of_match c with
      | some id =>
          simp [scanDriversAux, hm] at h
          obtain ⟨-, h2, -⟩ := h
          subst h2
          simp [List.find?, driverMatches, hm]
      | none =>
          simp [scanDriversAux, hm] at h
          simp [List.find?, driverMatches, hm]
          exact ih (k + 1) i e oid h

/-- Any driver the scan selects is a member of the registry. -/
theorem scanAux_mem (c : String) (l : List Driver) :
    ∀ drv k i e oid, scanDriversAux drv c k l = some (i, e, oid) → e ∈ l := by
  induction l with
  | nil => intro drv k i e oid h; simp [scanDriversAux] at h
  | cons hd tl ih =>
      intro drv k i e oid h
      cases drv with
      | none =>
          cases hm : driver_check_compatible hd.of_match c with
          | some id =>
              simp [scanDriversAux, hm] at h
              simp [h.2.1]
          | none =>
              simp [scanDriversAux, hm] at h
              exact List.mem_cons_of_mem hd (ih none (k + 1) i e oid h)
      | some di =>
          by_cases hdi : di = k
          · subst hdi
            by_cases hof : hd.of_match.isNone
            · simp [scanDriversAux, hof] at h
              simp [h.2.1]
            · cases hm : driver_check_compatible hd.of_match c with
              | some id =>
                  simp [scanDriversAux, hof, hm] at h
                  simp [h.2.1]
              | none =>
                  simp [scanDriversAux, hof, hm] at h
                  exact List.mem_cons_of_mem hd (ih (some di) (di + 1) i e oid h)
          · simp [scanDriversAux, hdi] at h
            exact List.mem_cons_of_mem hd (ih (some di) (k + 1) i e oid h)

/-- Under a restriction to a driver with no of_match table, the scan breaks
    out at that driver with no match recorded. -/
theorem scanAux_restrict (c : String) :
    ∀ (l : List Driver) (k di : Nat) (D : Driver),
      l[di]? = some D → D.of_match = none →
      scanDriversAux (some (k + di)) c k l = some (k + di, D, none) := by
  intro l
  induction l with
  | nil => intro k di D h; simp at h
  | cons hd tl ih =>
      intro k di D hget hof
      cases di with
      | zero =>
          simp at hget
          subst hget
          simp [scanDriversAux, hof]
      | succ d =>
          simp at hget
          have : k + (d + 1) ≠ k := by omega
          have h2 := ih (k + 1) d D hget hof
          have harith : k + 1 + d = k + (d + 1) := by omega
          rw [harith] at h2
          simp [scanDriversAux, this, h2]

/- ------------------------------------------------------------------ -/
/- Lemmas about the compatible-string loop. -/

/-- When no compatible string of the node selects a driver, the loop falls
    through and lists_bind_fdt returns success with no device. -/
theorem bindFdtLoop_no_match (drivers : List Driver) (drv : Option Nat)
    (pre npre : Bool) (bindFn : Driver → Nat → Int) :
    ∀ compats : List String, (∀ c ∈ compats, scanDrivers drivers drv c = none) →
      bindFdtLoop drivers drv pre npre bindFn compats = Except.ok none := by
  intro compats
  induction compats with
  | nil => intro _; simp [bindFdtLoop]
  | cons c rest ih =>
      intro h
      have hc : scanDrivers drivers drv c = none := h c (List.mem_cons_self c rest)
      simp only [bindFdtLoop, hc]
      exact ih fun c2 hc2 => h c2 (List.mem_cons_of_mem c hc2)

/-- With pre_reloc_only set, a node not marked pre-reloc whose every
    selectable driver lacks DM_FLAG_PRE_RELOC is skipped with success. -/
theorem bindFdtLoop_prereloc_skip (drivers : List Driver) (drv : Option Nat)
    (bindFn : Driver → Nat → Int) :
    ∀ compats : List String,
      (∀ c ∈ compats, scanEntryFlagsClear drivers drv c = true) →
      bindFdtLoop drivers drv true false bindFn compats = Except.ok none := by
  intro compats
  induction compats with
  | nil => intro _; simp [bindFdtLoop]
  | cons c rest ih =>
      intro h
      cases hscan : scanDrivers drivers drv c with
      | none =>
          simp only [bindFdtLoop, hscan]
          exact ih fun c2 hc2 => h c2 (List.mem_cons_of_mem c hc2)
      | some p =>
          obtain ⟨i, entry, oid⟩ := p
          have hflag : (entry.flags &&& DM_FLAG_PRE_RELOC == 0) = true := by
            have := h c (List.mem_cons_self c rest)
            simpa [scanEntryFlagsClear, hscan] using this
          simp only [bindFdtLoop, hscan]
          simp [hflag]

/-- With no restriction and a bind hook that never refuses, a bound device
    carries the first driver matching the highest-priority matchable
    compatible string. -/
theorem bindFdtLoop_priority (drivers : List Driver) (pre npre : Bool)
    (bindFn : Driver → Nat → Int)
    (hnodev : ∀ dv dat, bindFn dv dat ≠ -ENODEV) :
    ∀ (compats : List String) (e : Driver) (d : Nat),
      bindFdtLoop drivers none pre npre bindFn compats
        = Except.ok (some (e, d)) →
      ∃ k, k < compats.length ∧
        (∀ j, j < k → ∀ e2 ∈ drivers,
          driverMatches e2 (compats.getD j "") = false) ∧
        drivers.find? (fun e2 => driverMatches e2 (compats.getD k ""))
          = some e := by
  intro compats
  induction compats with
  | nil => intro e d h; simp [bindFdtLoop] at h
  | cons c rest ih =>
      intro e d h
      cases hscan : scanDrivers drivers none c with
      | none =>
          simp only [bindFdtLoop, hscan] at h
          obtain ⟨k, hk, hprev, hfind⟩ := ih e d h
          refine ⟨k + 1, by simpa using hk, ?_, by simpa using hfind⟩
          intro j hj e2 he2
          cases j with
          | zero =>
              have := (scanAux_eq_none_iff c drivers 0).mp hscan
              simpa using this e2 he2
          | succ j2 =>
              simpa using hprev j2 (by omega) e2 he2
      | some p =>
          obtain ⟨i, entry, oid⟩ := p
          simp only [bindFdtLoop, hscan] at h
          split at h
          · simp at h
          · split at h
            · exact absurd (by assumption) (hnodev entry _)
            · split at h
              · simp only [Except.ok.injEq, Option.some.injEq, Prod.mk.injEq]
                  at h
                obtain ⟨he, -⟩ := h
                subst he
                refine ⟨0, by simp, by omega, ?_⟩
                simpa using scanAux_some_find c drivers 0 i entry oid hscan
              · simp at h

/- ------------------------------------------------------------------ -/
/- Claim theorems: HDT binding. -/

/-- C1 amended: for an HDT node bound as a device by lists_bind_fdt with no
    driver restriction, PROVIDED no consulted bind hook refuses with -ENODEV,
    the chosen driver is the first driver in registry order whose of_match
    table contains the compatible string of the smallest index k that any
    driver matches, and no lower-priority compatible string is used when a
    higher-priority one matches some driver.  (Without the proviso the rule
    fails: a -ENODEV refusal makes the loop fall through to the next,
    lower-priority, compatible string — see the counterexample.) -/
theorem C1_compatible_priority (drivers : List Driver) (node : Node)
    (bindFn : Driver → Nat → Int) (pre : Bool) (compats : List String)
    (e : Driver) (d : Nat)
    (hprop : node.compat_prop = Except.ok compats)
    (hnodev : ∀ dv dat, bindFn dv dat ≠ -ENODEV)
    (hres : lists_bind_fdt drivers node none pre bindFn
      = Except.ok (some (e, d))) :
    ∃ k, k < compats.length ∧
      (∀ j, j < k → ∀ e2 ∈ drivers,
        driverMatches e2 (compats.getD j "") = false) ∧
      drivers.find? (fun e2 => driverMatches e2 (compats.getD k ""))
        = some e := by
  simp only [lists_bind_fdt, hprop] at hres
  exact bindFdtLoop_priority drivers pre node.pre_reloc bindFn hnodev
    compats e d hres

/-- Witness for C1: the priority scenario of the spec, driver B (matching the
    higher-priority "acme,foo-v2") is chosen over A at index k = 0. -/
theorem C1_compatible_priority_witness :
    ∃ k, k < (["acme,foo-v2", "generic,foo"] : List String).length ∧
      (∀ j, j < k → ∀ e2 ∈ [exDrvA, exDrvB],
        driverMatches e2
          ((["acme,foo-v2", "generic,foo"] : List String).getD j "") = false) ∧
      ([exDrvA, exDrvB].find? (fun e2 => driverMatches e2
          ((["acme,foo-v2", "generic,foo"] : List String).getD k "")))
        = some exDrvB :=
  C1_compatible_priority [exDrvA, exDrvB] exNodePrio (fun _ _ => 0) false
    ["acme,foo-v2", "generic,foo"] exDrvB 7 rfl
    (fun _ _ => by show (0 : Int) ≠ -ENODEV; decide) rfl

/-- C7 counterexample: lists_bind_fdt restricted to a driver with no of_match
    table (here index 0, the only registry entry) does invoke bind for that
    driver and creates a device, where the claim says no device is created
    and bind is never invoked. -/
theorem C7_counterexample :
    lists_bind_fdt [exDrvNoMatch] exNodeSingle (some 0) false (fun _ _ => 0)
        = Except.ok (some (exDrvNoMatch, 0)) ∧
      lists_bind_fdt [exDrvNoMatch] exNodeSingle (some 0) false (fun _ _ => 0)
        ≠ Except.ok none := by
  refine ⟨rfl, fun h => ?_⟩
  rw [show lists_bind_fdt [exDrvNoMatch] exNodeSingle (some 0) false
      (fun _ _ => 0) = Except.ok (some (exDrvNoMatch, 0)) from rfl] at h
  simp at h

/-- C7 amended: when lists_bind_fdt is called with a driver restriction and
    that driver has no of_match list, the per-compatible-string scan breaks
    out at that driver, but bind_with_driver IS invoked for it (with zero
    driver data); when the bind hook succeeds, a device is created for the
    node with that driver. -/
theorem C7_amended (drivers : List Driver) (node : Node) (di : Nat)
    (D : Driver) (bindFn : Driver → Nat → Int) (c : String)
    (rest : List String)
    (hget : drivers[di]? = some D)
    (hof : D.of_match = none)
    (hprop : node.compat_prop = Except.ok (c :: rest))
    (hbind : bindFn D 0 = 0) :
    lists_bind_fdt drivers node (some di) false bindFn
      = Except.ok (some (D, 0)) := by
  have hscan : scanDrivers drivers (some di) c = some (di, D, none) := by
    have h0 := scanAux_restrict c drivers 0 di D hget hof
    simpa [scanDrivers] using h0
  simp only [lists_bind_fdt, hprop, bindFdtLoop, hscan]
  simp [hbind, ENODEV]

/-- Witness for C7 amended: the restricted no-of_match driver is bound with
    driver data 0. -/
theorem C7_amended_witness :
    lists_bind_fdt [exDrvNoMatch] exNodeSingle (some 0) false (fun _ _ => 0)
      = Except.ok (some (exDrvNoMatch, 0)) :=
  C7_amended [exDrvNoMatch] exNodeSingle 0 exDrvNoMatch (fun _ _ => 0)
    "c" [] rfl rfl rfl rfl

/-- C8: with pre_reloc_only true, when the node is not marked pre-reloc and
    every driver the scan could select for one of its compatible strings
    lacks DM_FLAG_PRE_RELOC, lists_bind_fdt returns success and binds no
    device (the bind oracle is never consulted: the result holds for every
    bindFn). -/
theorem C8_prereloc_skip (drivers : List Driver) (node : Node)
    (drv : Option Nat) (bindFn : Driver → Nat → Int) (compats : List String)
    (hprop : node.compat_prop = Except.ok compats)
    (hnpre : node.pre_reloc = false)
    (hflags : ∀ c ∈ compats, scanEntryFlagsClear drivers drv c = true) :
    lists_bind_fdt drivers node drv true bindFn = Except.ok none := by
  simp only [lists_bind_fdt, hprop, hnpre]
  exact bindFdtLoop_prereloc_skip drivers drv bindFn compats hflags

/-- Witness for C8: a matching driver without DM_FLAG_PRE_RELOC on a node
    without the pre-reloc mark is skipped without error. -/
theorem C8_prereloc_skip_witness :
    lists_bind_fdt [exDrvA] exNodeGeneric none true (fun _ _ => 0)
      = Except.ok none :=
  C8_prereloc_skip [exDrvA] exNodeGeneric none (fun _ _ => 0)
    ["generic,foo"] rfl rfl (by decide)

/-- C9: a node with no compatible property (-FDT_ERR_NOTFOUND), and a node
    none of whose compatible strings matches any registered driver, both make
    lists_bind_fdt return success with no device; the devp output is left
    null (the ok none result). -/
theorem C9_no_match_no_error (drivers : List Driver) (node : Node)
    (bindFn : Driver → Nat → Int) (pre : Bool)
    (h : node.compat_prop = Except.error (-FDT_ERR_NOTFOUND) ∨
      ∃ compats, node.compat_prop = Except.ok compats ∧
        ∀ c ∈ compats, ∀ e ∈ drivers, driverMatches e c = false) :
    lists_bind_fdt drivers node none pre bindFn = Except.ok none := by
  rcases h with h | ⟨compats, hprop, hnm⟩
  · simp [lists_bind_fdt, h]
  · simp only [lists_bind_fdt, hprop]
    exact bindFdtLoop_no_match drivers none pre node.pre_reloc bindFn compats
      (fun c hc => (scanAux_eq_none_iff c drivers 0).mpr (hnm c hc))

/-- Witness for C9: a compatible string matching no registered driver is not
    an error and produces no device. -/
theorem C9_no_match_no_error_witness :
    lists_bind_fdt [exDrvA] exNodeNoMatch none false (fun _ _ => 0)
      = Except.ok none :=
  C9_no_match_no_error [exDrvA] exNodeNoMatch (fun _ _ => 0) false
    (Or.inr ⟨["zzz"], rfl, by decide⟩)

/- ------------------------------------------------------------------ -/
/- Claim theorems: probe walk, extended scan, teardown. -/

/-- C2 counterexample: a PROBE_AFTER_BIND device P whose probe fails (-5)
    makes dm_probe_devices return the error without visiting P's child C
    (C has PROBE_AFTER_BIND with a succeeding probe, so it would appear in
    the probe trace if visited); the claim says the walk descends into the
    children even when the device's own probe fails. -/
theorem C2_counterexample :
    dm_probe_devices false exProbeParent = (-5, ["P"]) ∧
      "C" ∉ (dm_probe_devices false exProbeParent).2 := by
  constructor
  · decide
  · decide

/-- C2 amended: the walk descends into a device's children when the device is
    gate-skipped, lacks PROBE_AFTER_BIND, or probes successfully — and sibling
    subtrees are all walked with their results discarded — but a probe error
    on a PROBE_AFTER_BIND device is returned immediately and its children are
    not visited. -/
theorem C2_amended (pre : Bool) (info : DevInfo) (children : List DevTree) :
    (probeGateSkip pre info = false →
      info.flags &&& DM_FLAG_PROBE_AFTER_BIND ≠ 0 →
      info.probe_res ≠ 0 →
      dm_probe_devices pre (.node info children)
        = (info.probe_res, [info.name])) ∧
    (∀ cs : List DevTree, probe_children pre cs
        = (cs.map (fun c => (dm_probe_devices pre c).2)).flatten) ∧
    ((probeGateSkip pre info = true ∨
        info.flags &&& DM_FLAG_PROBE_AFTER_BIND = 0 ∨ info.probe_res = 0) →
      (dm_probe_devices pre (.node info children)).1 = 0) := by
  refine ⟨?_, ?_, ?_⟩
  · intro h1 h2 h3
    simp [dm_probe_devices, h1, h2, h3]
  · intro cs
    induction cs with
    | nil => simp [probe_children]
    | cons c cs2 ih => simp [probe_children, ih]
  · intro h
    by_cases hg : probeGateSkip pre info
    · simp [dm_probe_devices, hg]
    · rcases h with h | h | h
      · exact absurd h hg
      · simp [dm_probe_devices, hg, h]
      · by_cases hf : info.flags &&& DM_FLAG_PROBE_AFTER_BIND ≠ 0
        · simp [dm_probe_devices, hg, hf, h]
        · simp [dm_probe_devices, hg, hf]

/-- Witness for C2 amended: a failing PROBE_AFTER_BIND probe returns its
    error with only that device in the probe trace. -/
theorem C2_amended_witness :
    dm_probe_devices false
        (.node ⟨"Q", DM_FLAG_PROBE_AFTER_BIND, 0, true, true, -7⟩
          [exProbeChild])
      = (-7, ["Q"]) :=
  (C2_amended false ⟨"Q", DM_FLAG_PROBE_AFTER_BIND, 0, true, true, -7⟩
      [exProbeChild]).1
    (by decide) (by decide) (by decide)

/-- C3 counterexample: with the root scan succeeding and the /chosen scan
    failing (-5), dm_extended_scan returns -5 having scanned only /chosen;
    /clocks and /firmware are never attempted, where the claim says every
    remaining auxiliary root is still scanned. -/
theorem C3_counterexample :
    dm_extended_scan 0 exScanChosenFails = (-5, ["/chosen"]) ∧
      "/clocks" ∉ (dm_extended_scan 0 exScanChosenFails).2 := by
  constructor
  · decide
  · decide

/-- The auxiliary-path loop stops at the first failing path and returns its
    error; later paths are not scanned. -/
theorem extendedScanLoop_first_error (sp : String → Int) :
    ∀ (l : List String) (i : Nat), i < l.length →
      (∀ j, j < i → sp (l.getD j "") = 0) →
      sp (l.getD i "") ≠ 0 →
      extendedScanLoop sp l = (sp (l.getD i ""), l.take (i + 1)) := by
  intro l
  induction l with
  | nil => intro i hi _ _; simp at hi
  | cons p rest ih =>
      intro i hi hprev herr
      cases i with
      | zero =>
          simp only [List.getD_cons_zero] at herr ⊢
          simp [extendedScanLoop, herr]
      | succ i2 =>
          have hp0 : sp p = 0 := by simpa using hprev 0 (by omega)
          have hstep := ih i2 (by simpa using hi)
            (fun j hj => by simpa using hprev (j + 1) (by omega))
            (by simpa using herr)
          simp [extendedScanLoop, hp0, hstep]

/-- C3 amended: dm_extended_scan returns the first error immediately — a root
    scan failure skips the auxiliary paths entirely, and a failure at
    auxiliary path i ends the function with exactly paths 0..i scanned; the
    remaining auxiliary roots are NOT attempted. -/
theorem C3_amended (scanRoot : Int) (scanPath : String → Int) :
    (scanRoot ≠ 0 → dm_extended_scan scanRoot scanPath = (scanRoot, [])) ∧
    (∀ i, i < auxNodes.length → scanRoot = 0 →
      (∀ j, j < i → scanPath (auxNodes.getD j "") = 0) →
      scanPath (auxNodes.getD i "") ≠ 0 →
      dm_extended_scan scanRoot scanPath
        = (scanPath (auxNodes.getD i ""), auxNodes.take (i + 1))) := by
  constructor
  · intro h
    simp [dm_extended_scan, h]
  · intro i hi h0 hprev herr
    subst h0
    simp only [dm_extended_scan, ne_eq, not_true_eq_false, if_neg,
      not_false_eq_true]
    simpa using extendedScanLoop_first_error scanPath auxNodes i hi hprev herr

/-- Witness for C3 amended: /clocks failing with -7 after /chosen succeeds
    ends the scan with only /chosen and /clocks attempted. -/
theorem C3_amended_witness :
    dm_extended_scan 0 exScanClocksFails = (-7, ["/chosen", "/clocks"]) :=
  (C3_amended 0 exScanClocksFails).2 1 (by decide) rfl
    (fun j hj => by
      have hj0 : j = 0 := by omega
      subst hj0
      decide)
    (by decide)

/-- C10: dm_uninit issues remove(root, NON_VITAL), then remove(root, NORMAL),
    then unbind(root), clears the root handle and returns 0 — and invoked
    again on the cleared state it again returns 0 with the root still null
    (the same three calls now receiving the null device). -/
theorem C10_uninit (gd : GlobalData) :
    dm_uninit gd = (0, ⟨none⟩,
      [UninitCall.remove gd.dm_root DM_REMOVE_NON_VITAL,
       UninitCall.remove gd.dm_root DM_REMOVE_NORMAL,
       UninitCall.unbind gd.dm_root]) ∧
    (dm_uninit (dm_uninit gd).2.1).1 = 0 ∧
    (dm_uninit (dm_uninit gd).2.1).2.1.dm_root = none ∧
    (dm_uninit (dm_uninit gd).2.1).2.2
      = [UninitCall.remove none DM_REMOVE_NON_VITAL,
         UninitCall.remove none DM_REMOVE_NORMAL,
         UninitCall.unbind none] :=
  ⟨rfl, rfl, rfl, rfl⟩


/- ------------------------------------------------------------------ -/
/- Lemmas about one static-descriptor pass. -/

/-- With the of-platdata machinery disabled, one loop iteration always
    attempts the bind: the index is appended to the trace and the result is
    threaded through recordErr unless the bind succeeded or refused (-EPERM).
    Slots and missing_parent are untouched. -/
theorem passStep_noPlat (infos : List DriverInfo) (bindRes : Nat → Int)
    (st : PassState) (i : Nat) :
    passStep ⟨false, false⟩ infos bindRes st i
      = { st with
          result := if bindRes i = 0 ∨ bindRes i = -EPERM then st.result
                    else recordErr st.result (bindRes i),
          binds := st.binds ++ [i] } := by
  obtain ⟨sl, mp, res, bd⟩ := st
  by_cases h0 : bindRes i = 0
  · simp [passStep, h0]
  · by_cases hp : bindRes i = -EPERM
    · simp [passStep, h0, hp]
    · by_cases hc : res = 0 ∨ bindRes i ≠ -ENOENT
      · simp [passStep, h0, hp, hc, recordErr]
      · simp [passStep, h0, hp, hc, recordErr]

/-- With the of-platdata machinery disabled, the pass fold appends every
    index to the bind trace, leaves slots and missing_parent alone, and folds
    recordErr over the non-benign bind failures. -/
theorem passFold_noPlat (infos : List DriverInfo) (bindRes : Nat → Int) :
    ∀ (idxs : List Nat) (st : PassState),
      idxs.foldl (passStep ⟨false, false⟩ infos bindRes) st
        = { st with
            result := ((idxs.map bindRes).filter
              (fun r => !(r == 0) && !(r == -EPERM))).foldl recordErr
                st.result,
            binds := st.binds ++ idxs } := by
  intro idxs
  induction idxs with
  | nil => intro st; simp
  | cons i rest ih =>
      intro st
      rw [List.foldl_cons, passStep_noPlat, ih]
      by_cases hc : bindRes i = 0 ∨ bindRes i = -EPERM
      · have hpred : (!(bindRes i == 0) && !(bindRes i == -EPERM)) = false := by
          rcases hc with h | h <;> simp [h]
        simp [List.filter_cons, hpred, hc, List.append_assoc]
      · have hpred : (!(bindRes i == 0) && !(bindRes i == -EPERM)) = true := by
          push_neg at hc
          simp [hc.1, hc.2]
        simp [List.filter_cons, hpred, hc, List.append_assoc]

/-- The last non-NoDriver error is one of the recorded errors. -/
theorem lastNonNoDriver_mem :
    ∀ (errs : List Int) (x : Int),
      lastNonNoDriver errs = some x → x ∈ errs := by
  intro errs
  induction errs with
  | nil => intro x h; simp [lastNonNoDriver] at h
  | cons e rest ih =>
      intro x h
      simp only [lastNonNoDriver] at h
      cases hlast : lastNonNoDriver rest with
      | some y =>
          rw [hlast] at h
          simp at h
          subst h
          exact List.mem_cons_of_mem e (ih y hlast)
      | none =>
          rw [hlast] at h
          by_cases hen : e = -ENOENT
          · simp [hen] at h
          · simp [hen] at h
            subst h
            exact List.mem_cons_self _ _

/-- Folding recordErr over non-zero errors yields the last non-NoDriver error
    when one exists, and otherwise keeps (or -ENOENT-initializes) the
    accumulator. -/
theorem recordErr_fold :
    ∀ (errs : List Int) (acc : Int), (∀ e ∈ errs, e ≠ 0) →
      errs.foldl recordErr acc =
        match lastNonNoDriver errs with
        | some x => x
        | none =>
            if errs.isEmpty then acc
            else if acc = 0 then -ENOENT else acc := by
  intro errs
  induction errs with
  | nil => intro acc _; simp [lastNonNoDriver]
  | cons e rest ih =>
      intro acc h
      have he : e ≠ 0 := h e (List.mem_cons_self e rest)
      rw [List.foldl_cons,
        ih (recordErr acc e) (fun x hx => h x (List.mem_cons_of_mem e hx))]
      by_cases hen : e = -ENOENT
      · subst hen
        cases hlast : lastNonNoDriver rest with
        | some x => simp [lastNonNoDriver, hlast]
        | none =>
            have ha : recordErr acc (-ENOENT)
                = if acc = 0 then -ENOENT else acc := by
              simp [recordErr]
            have ha0 : recordErr acc (-ENOENT) ≠ 0 := by
              rw [ha]
              by_cases hacc : acc = 0
              · simp [hacc, ENOENT]
              · simp only [hacc, if_false]
                exact hacc
            simp only [lastNonNoDriver, hlast, if_pos rfl,
              List.isEmpty_cons, Bool.false_eq_true, if_false]
            by_cases hre : rest.isEmpty
            · simp [hre, ha]
            · simp only [hre, Bool.false_eq_true, if_false]
              rw [if_neg ha0, ha]
              simp
      · cases hlast : lastNonNoDriver rest with
        | some x => simp [lastNonNoDriver, hlast, hen]
        | none =>
            have hre : recordErr acc e = e := by simp [recordErr, hen]
            simp only [lastNonNoDriver, hlast, hen, if_neg, hre,
              List.isEmpty_cons, Bool.false_eq_true, if_false]
            by_cases hrest : rest.isEmpty
            · simp [hrest, hen]
            · simp [hrest, he, hen]

/-- Every recorded pass error is non-zero. -/
theorem passErrors_ne_zero (infos : List DriverInfo) (bindRes : Nat → Int) :
    ∀ e ∈ passErrors infos bindRes, e ≠ 0 := by
  intro e he
  have hf := List.of_mem_filter he
  simp at hf
  exact hf.1

/-- C4 counterexample: descriptor 0 fails with -EINVAL and descriptor 1 with
    -5, both non-NoDriver errors; the pass returns -5, the LATER error, where
    the claim says the first non-NoDriver error (-EINVAL) is recorded and
    later errors in the same pass do not replace it. -/
theorem C4_counterexample :
    (bind_drivers_pass ⟨false, false⟩ exInfosTwo exBindTwoErrs
        [none, none]).1 = -5 ∧
      (bind_drivers_pass ⟨false, false⟩ exInfosTwo exBindTwoErrs
        [none, none]).1 ≠ -EINVAL := by
  constructor
  · decide
  · decide

/-- C4 amended: within one pass (of-platdata machinery disabled, so every
    descriptor is attempted), the returned error is the MOST RECENT
    non-NoDriver bind error when any occurred — each later non-NoDriver error
    replaces the recorded one — otherwise -ENOENT when at least one bind
    failed with NoDriver, and 0 when no recordable failure occurred. -/
theorem C4_amended (infos : List DriverInfo) (bindRes : Nat → Int)
    (slots : List (Option Nat)) :
    (bind_drivers_pass ⟨false, false⟩ infos bindRes slots).1 =
      match lastNonNoDriver (passErrors infos bindRes) with
      | some x => x
      | none =>
          if (passErrors infos bindRes).isEmpty then 0 else -ENOENT := by
  have hfold := passFold_noPlat infos bindRes (List.range infos.length)
    ⟨slots, false, 0, []⟩
  have hpe : ((List.range infos.length).map bindRes).filter
      (fun r => !(r == 0) && !(r == -EPERM)) = passErrors infos bindRes := rfl
  simp only [bind_drivers_pass, hfold, hpe]
  rw [recordErr_fold _ 0 (passErrors_ne_zero infos bindRes)]
  cases hlast : lastNonNoDriver (passErrors infos bindRes) with
  | some x =>
      have hx0 : x ≠ 0 :=
        passErrors_ne_zero infos bindRes x (lastNonNoDriver_mem _ x hlast)
      simp [hlast, hx0]
  | none =>
      by_cases he : (passErrors infos bindRes).isEmpty
      · simp [hlast, he]
      · simp [hlast, he, ENOENT]

/- ------------------------------------------------------------------ -/
/- Lemmas about the 10-pass loop of lists_bind_drivers. -/

/-- The pass trajectory commutes with executing one pass. -/
theorem slotsAfter_shift (cfg : DMConfig) (infos : List DriverInfo)
    (bindRes : Nat → Int) (slots : List (Option Nat)) :
    ∀ k, slotsAfter cfg infos bindRes slots (k + 1)
      = slotsAfter cfg infos bindRes
          (bind_drivers_pass cfg infos bindRes slots).2.1 k := by
  intro k
  induction k with
  | zero => rfl
  | succ k2 ih =>
      calc slotsAfter cfg infos bindRes slots (k2 + 1 + 1)
          = (bind_drivers_pass cfg infos bindRes
              (slotsAfter cfg infos bindRes slots (k2 + 1))).2.1 := rfl
        _ = (bind_drivers_pass cfg infos bindRes
              (slotsAfter cfg infos bindRes
                (bind_drivers_pass cfg infos bindRes slots).2.1 k2)).2.1 := by
            rw [ih]
        _ = slotsAfter cfg infos bindRes
              (bind_drivers_pass cfg infos bindRes slots).2.1 (k2 + 1) := rfl

/-- Pass returns along the trajectory, shifted by one executed pass. -/
theorem passRet_shift (cfg : DMConfig) (infos : List DriverInfo)
    (bindRes : Nat → Int) (slots : List (Option Nat)) (k : Nat) :
    passRet cfg infos bindRes slots (k + 1)
      = passRet cfg infos bindRes
          (bind_drivers_pass cfg infos bindRes slots).2.1 k := by
  simp only [passRet, slotsAfter_shift]

/-- The pass loop executes at most `fuel` more passes. -/
theorem bindDriversGo_count_le (cfg : DMConfig) (infos : List DriverInfo)
    (bindRes : Nat → Int) :
    ∀ (fuel : Nat) (result : Int) (slots : List (Option Nat)) (count : Nat),
      (bindDriversGo cfg infos bindRes fuel result slots count).2
        ≤ count + fuel := by
  intro fuel
  induction fuel with
  | zero => intro result slots count; simp [bindDriversGo]
  | succ f ih =>
      intro result slots count
      by_cases hr : (bind_drivers_pass cfg infos bindRes slots).1 ≠ -EAGAIN
      · simp [bindDriversGo, hr]
      · push_neg at hr
        simp only [bindDriversGo, hr, ne_eq, not_true_eq_false, if_false]
        exact le_trans (ih _ _ (count + 1)) (by omega)

/-- If the (j+1)-th pass along the trajectory does not report -EAGAIN, the
    loop executes at most j+1 more passes: it stops at the first pass whose
    result differs from -EAGAIN. -/
theorem bindDriversGo_stop (cfg : DMConfig) (infos : List DriverInfo)
    (bindRes : Nat → Int) :
    ∀ (fuel : Nat) (slots : List (Option Nat)) (j : Nat), j < fuel →
      passRet cfg infos bindRes slots j ≠ -EAGAIN →
      ∀ (result : Int) (count : Nat),
        (bindDriversGo cfg infos bindRes fuel result slots count).2
          ≤ count + j + 1 := by
  intro fuel
  induction fuel with
  | zero => intro slots j hj; exact absurd hj (Nat.not_lt_zero j)
  | succ f ih =>
      intro slots j hj hpr result count
      by_cases hr : (bind_drivers_pass cfg infos bindRes slots).1 ≠ -EAGAIN
      · simp [bindDriversGo, hr]
      · push_neg at hr
        have hj0 : j ≠ 0 := by
          intro h0
          subst h0
          exact hpr (by simpa [passRet, slotsAfter] using hr)
        obtain ⟨j2, rfl⟩ : ∃ j2, j = j2 + 1 := ⟨j - 1, by omega⟩
        have hpr2 : passRet cfg infos bindRes
            (bind_drivers_pass cfg infos bindRes slots).2.1 j2 ≠ -EAGAIN := by
          rw [← passRet_shift]
          exact hpr
        simp only [bindDriversGo, hr, ne_eq, not_true_eq_false, if_false]
        exact le_trans (ih _ j2 (by omega) hpr2 _ (count + 1)) (by omega)

/-- When every remaining pass reports -EAGAIN, the loop exhausts its fuel and
    the final result is -EAGAIN. -/
theorem bindDriversGo_all_eagain (cfg : DMConfig) (infos : List DriverInfo)
    (bindRes : Nat → Int) :
    ∀ (fuel : Nat) (slots : List (Option Nat)) (result : Int) (count : Nat),
      (∀ k, k < fuel → passRet cfg infos bindRes slots k = -EAGAIN) →
      (result = -EAGAIN ∨ (0 < fuel ∧ result = 0)) →
      bindDriversGo cfg infos bindRes fuel result slots count
        = (-EAGAIN, count + fuel) := by
  intro fuel
  induction fuel with
  | zero =>
      intro slots result count _ hres
      rcases hres with h | ⟨h0, _⟩
      · simp [bindDriversGo, h]
      · omega
  | succ f ih =>
      intro slots result count hall hres
      have h0 : (bind_drivers_pass cfg infos bindRes slots).1 = -EAGAIN := by
        simpa [passRet, slotsAfter] using hall 0 (by omega)
      have hresult1 : (if result = 0 ∨ result = -EAGAIN
          then (-EAGAIN : Int) else result) = -EAGAIN := by
        rcases hres with h | ⟨-, h⟩ <;> simp [h]
      have hall2 : ∀ k, k < f → passRet cfg infos bindRes
          (bind_drivers_pass cfg infos bindRes slots).2.1 k = -EAGAIN := by
        intro k hk
        rw [← passRet_shift]
        exact hall (k + 1) (by omega)
      have step : bindDriversGo cfg infos bindRes (f + 1) result slots count
          = bindDriversGo cfg infos bindRes f (-EAGAIN)
              (bind_drivers_pass cfg infos bindRes slots).2.1 (count + 1) := by
        simp [bindDriversGo, h0, hresult1]
      rw [step, ih _ (-EAGAIN) (count + 1) hall2 (Or.inl rfl)]
      simp only [Prod.mk.injEq, true_and]
      omega

/-- C5: lists_bind_drivers runs the pass at most 10 times; it stops as soon
    as a pass returns something other than -EAGAIN (never running more than
    j+1 passes when pass j is the first non-EAGAIN one, and only continuing
    past a pass that returned -EAGAIN); and when all 10 passes report
    -EAGAIN — a parent-dependency cycle or excessive depth — it returns
    -EAGAIN, a non-success result. -/
theorem C5_pass_loop (cfg : DMConfig) (infos : List DriverInfo)
    (bindRes : Nat → Int) (slots : List (Option Nat)) :
    (lists_bind_drivers cfg infos bindRes slots).2 ≤ 10 ∧
    (∀ j, j < 10 → passRet cfg infos bindRes slots j ≠ -EAGAIN →
      (lists_bind_drivers cfg infos bindRes slots).2 ≤ j + 1) ∧
    (∀ j, j + 1 < (lists_bind_drivers cfg infos bindRes slots).2 →
      passRet cfg infos bindRes slots j = -EAGAIN) ∧
    ((∀ k, k < 10 → passRet cfg infos bindRes slots k = -EAGAIN) →
      lists_bind_drivers cfg infos bindRes slots = (-EAGAIN, 10) ∧
        (-EAGAIN : Int) ≠ 0) := by
  refine ⟨?_, ?_, ?_, ?_⟩
  · simpa using bindDriversGo_count_le cfg infos bindRes 10 0 slots 0
  · intro j hj hp
    simpa using bindDriversGo_stop cfg infos bindRes 10 slots j hj hp 0 0
  · intro j hj
    by_contra hne
    have hstop := bindDriversGo_stop cfg infos bindRes 10 slots j
      (by
        have hle := bindDriversGo_count_le cfg infos bindRes 10 0 slots 0
        have : (lists_bind_drivers cfg infos bindRes slots).2 ≤ 10 := by
          simpa using hle
        omega)
      hne 0 0
    have : (lists_bind_drivers cfg infos bindRes slots).2 ≤ j + 1 := by
      simpa using hstop
    omega
  · intro hall
    have hrun := bindDriversGo_all_eagain cfg infos bindRes 10 slots 0 0 hall
      (Or.inr ⟨by omega, rfl⟩)
    refine ⟨by simpa [lists_bind_drivers] using hrun, by decide⟩

/-- Witness for C5: a self-parent descriptor cycle under full of-platdata
    keeps every pass reporting -EAGAIN; after 10 passes the scanner returns
    -EAGAIN, not success. -/
theorem C5_pass_loop_witness :
    lists_bind_drivers exCfgPlat exInfosCycle exBindOk [none]
        = (-EAGAIN, 10) ∧
      (-EAGAIN : Int) ≠ 0 :=
  (C5_pass_loop exCfgPlat exInfosCycle exBindOk [none]).2.2.2 (by decide)

/- ------------------------------------------------------------------ -/
/- Lemmas for the slot-deduplication invariant of the pass. -/

/-- Writing one slot leaves every other slot unchanged. -/
theorem slotAt_set_ne :
    ∀ (l : List (Option Nat)) (i j : Nat) (v : Option Nat), i ≠ j →
      slotAt (l.set i v) j = slotAt l j := by
  intro l
  induction l with
  | nil => intro i j v _; simp [List.set]
  | cons a tl ih =>
      intro i j v h
      cases i with
      | zero =>
          cases j with
          | zero => exact absurd rfl h
          | succ j2 => simp [List.set, slotAt, List.get?]
      | succ i2 =>
          cases j with
          | zero => simp [List.set, slotAt, List.get?]
          | succ j2 =>
              simp only [List.set, slotAt, List.get?]
              exact ih i2 j2 v (by omega)

/-- Under of-platdata, one loop iteration never disturbs a filled slot and
    never invokes bind for its descriptor. -/
theorem passStep_slot_inv (cfg : DMConfig) (infos : List DriverInfo)
    (bindRes : Nat → Int) (st : PassState) (idx i d : Nat)
    (hplat : cfg.of_platdata = true)
    (h1 : slotAt st.slots i = some d) (h2 : i ∉ st.binds) :
    slotAt (passStep cfg infos bindRes st idx).slots i = some d ∧
      i ∉ (passStep cfg infos bindRes st idx).binds := by
  by_cases hb1 : (cfg.of_platdata && (slotAt st.slots idx).isSome) = true
  · simp only [passStep, hb1, if_true]
    exact ⟨h1, h2⟩
  · have hidx : idx ≠ i := by
      intro he
      subst he
      apply hb1
      simp [hplat, h1]
    have hb1f : (cfg.of_platdata && (slotAt st.slots idx).isSome) = false :=
      Bool.eq_false_iff.mpr hb1
    have hbinds : i ∉ st.binds ++ [idx] := by
      simp only [List.mem_append, List.mem_singleton]
      rintro (h | h)
      · exact h2 h
      · exact hidx h.symm
    have hset : slotAt (st.slots.set idx (some idx)) i = some d := by
      rw [slotAt_set_ne st.slots idx i (some idx) hidx]
      exact h1
    have hempty : (slotAt st.slots idx).isSome = false := by
      rw [hplat] at hb1f
      simpa using hb1f
    simp only [passStep, hplat, hempty, Bool.true_and, Bool.and_false,
      Bool.false_eq_true, if_false, if_true]
    split
    · exact ⟨h1, h2⟩
    · split
      · exact ⟨hset, hbinds⟩
      · split
        · exact ⟨h1, hbinds⟩
        · split
          · exact ⟨h1, hbinds⟩
          · exact ⟨h1, hbinds⟩

/-- The invariant of passStep_slot_inv carried over the whole pass fold. -/
theorem passFold_slot_inv (cfg : DMConfig) (infos : List DriverInfo)
    (bindRes : Nat → Int) (hplat : cfg.of_platdata = true) :
    ∀ (idxs : List Nat) (st : PassState) (i d : Nat),
      slotAt st.slots i = some d → i ∉ st.binds →
      slotAt ((idxs.foldl (passStep cfg infos bindRes) st).slots) i
          = some d ∧
        i ∉ (idxs.foldl (passStep cfg infos bindRes) st).binds := by
  intro idxs
  induction idxs with
  | nil => intro st i d h1 h2; exact ⟨h1, h2⟩
  | cons idx rest ih =>
      intro st i d h1 h2
      rw [List.foldl_cons]
      obtain ⟨h1s, h2s⟩ :=
        passStep_slot_inv cfg infos bindRes st idx i d hplat h1 h2
      exact ih (passStep cfg infos bindRes st idx) i d h1s h2s

/-- Under of-platdata, a pass over descriptors whose slots are all filled
    changes nothing at all. -/
theorem passFold_filled (cfg : DMConfig) (infos : List DriverInfo)
    (bindRes : Nat → Int) (hplat : cfg.of_platdata = true) :
    ∀ (idxs : List Nat) (st : PassState),
      (∀ idx ∈ idxs, (slotAt st.slots idx).isSome) →
      idxs.foldl (passStep cfg infos bindRes) st = st := by
  intro idxs
  induction idxs with
  | nil => intro st _; rfl
  | cons idx rest ih =>
      intro st h
      rw [List.foldl_cons]
      have hcond : (cfg.of_platdata && (slotAt st.slots idx).isSome) = true := by
        simp [hplat, h idx (List.mem_cons_self idx rest)]
      have hstep : passStep cfg infos bindRes st idx = st := by
        simp [passStep, hcond]
      rw [hstep]
      exact ih st (fun x hx => h x (List.mem_cons_of_mem idx hx))

/-- C6: under the of-platdata slot machinery, a descriptor whose runtime slot
    already records a device is skipped by the pass — its slot is untouched
    and no bind is invoked for it — and when every slot is filled a further
    pass invokes no bind at all, so re-running the scanner binds nothing
    new. -/
theorem C6_slot_dedup (cfg : DMConfig) (infos : List DriverInfo)
    (bindRes : Nat → Int) (slots : List (Option Nat)) (i d : Nat)
    (hplat : cfg.of_platdata = true)
    (hslot : slotAt slots i = some d) :
    slotAt (bind_drivers_pass cfg infos bindRes slots).2.1 i = some d ∧
      i ∉ (bind_drivers_pass cfg infos bindRes slots).2.2 ∧
      ((∀ j, j < infos.length → (slotAt slots j).isSome) →
        (bind_drivers_pass cfg infos bindRes slots).2.2 = []) := by
  have hinv := passFold_slot_inv cfg infos bindRes hplat
    (List.range infos.length) ⟨slots, false, 0, []⟩ i d hslot (by simp)
  refine ⟨hinv.1, hinv.2, ?_⟩
  intro hall
  have hfill := passFold_filled cfg infos bindRes hplat
    (List.range infos.length) ⟨slots, false, 0, []⟩
    (fun idx hidx => hall idx (List.mem_range.mp hidx))
  simp only [bind_drivers_pass, hfill]

/-- Witness for C6: slot 0 already holds device 5; the pass leaves it, binds
    nothing for index 0 and — with all slots filled — binds nothing at all. -/
theorem C6_slot_dedup_witness :
    slotAt (bind_drivers_pass exCfgPlatNoParent exInfosTwo exBindOk
        [some 5, some 6]).2.1 0 = some 5 ∧
      0 ∉ (bind_drivers_pass exCfgPlatNoParent exInfosTwo exBindOk
        [some 5, some 6]).2.2 ∧
      (bind_drivers_pass exCfgPlatNoParent exInfosTwo exBindOk
        [some 5, some 6]).2.2 = [] := by
  have h := C6_slot_dedup exCfgPlatNoParent exInfosTwo exBindOk
    [some 5, some 6] 0 5 rfl rfl
  exact ⟨h.1, h.2.1, h.2.2 (by decide)⟩

/-- C1 counterexample: registry [B, A], where B matches the higher-priority
    string "acme,foo-v2" and A only the lower-priority "generic,foo", and B's
    bind hook refuses with -ENODEV.  lists_bind_fdt (lists.c:294-297 does
    `continue` on -ENODEV, moving to the NEXT compatible string) binds the
    node to A via the lower-priority string even though the higher-priority
    string matches registered driver B — so the bound driver satisfies no
    instance of the claim's priority characterization, refuting the claim
    that a lower-priority compatible string is never used to select a driver
    when a higher-priority one matches some driver. -/
theorem C1_counterexample :
    lists_bind_fdt [exDrvB, exDrvA] exNodePrio none false exBindRefuseB
        = Except.ok (some (exDrvA, 1)) ∧
      ¬ ∃ k, k < (["acme,foo-v2", "generic,foo"] : List String).length ∧
        (∀ j, j < k → ∀ e2 ∈ [exDrvB, exDrvA],
          driverMatches e2
            ((["acme,foo-v2", "generic,foo"] : List String).getD j "")
            = false) ∧
        ([exDrvB, exDrvA].find? (fun e2 => driverMatches e2
            ((["acme,foo-v2", "generic,foo"] : List String).getD k "")))
          = some exDrvA := by
  constructor
  · rfl
  · decide
